import Mathlib

/-!
Verification of `ofxParameterCollection` (file `src/ofxParameterCollection.h`
of the repository, shipped alongside the example app in
`src/example/src/ofApp.cpp`).

The class is a C++ template `ofxParameterCollection<ParameterType>` that keeps
three pieces of state in lock-step:

  * `std::vector<std::shared_ptr<ofParameter<ParameterType>>> parameters` —
    the ordered vector of item handles,
  * `ofParameterGroup parameterGroup` — the toolkit group mirroring the vector
    (its children are references to the very same `ofParameter` objects), and
  * `ofEventListeners valueListeners` — one value-change subscription per item.

The shallow embedding below instantiates the element type at `Int` (the class
is generic; nothing in the verified behaviour depends on the element type, and
the default-constructed placeholder value used by `addEntry` is modelled as
`0`).  An `ofParameter` handle is modelled as an `Item` carrying a numeric
identity `id` standing for the `shared_ptr` object identity; the group's
children and the listener targets are modelled as lists of those identities,
which captures the sharing (a group child *is* the parameter it was built
from).  C++ `int`/`size_t` index arithmetic is modelled on `Int`/`Nat` with
the implementation-defined conversion made explicit (`sizeTOfInt`).
Operations that contain `assert(...)` in the source return `Option` results:
`none` models the abort of a failed assertion (or a thrown
`std::out_of_range`), `some` a normal return together with the list of events
fired during the call.
-/

set_option maxHeartbeats 1000000

namespace OfxPC

/-- Model of one `ofParameter<ParameterType>` handle
(`std::shared_ptr<ofParameter<T>>`): `id` models the `shared_ptr` identity,
`name`/`value` the parameter's name and value, `pmin`/`pmax` the optional
limits set via `setMin`/`setMax`. -/
structure Item where
  id : Nat
  name : String
  value : Int
  pmin : Option Int
  pmax : Option Int
deriving DecidableEq

/-- Events observable by clients of the collection:
`shapeChanged` models a firing of `collectionChangedEvent` (payload: the
collection itself), `itemChanged i` a firing of `collectionItemChangedEvent`
with the parameter whose identity is `i`. -/
inductive Event where
  | shapeChanged
  | itemChanged (id : Nat)
deriving DecidableEq

/-- The state of an `ofxParameterCollection<ParameterType>` instance.
`itemPfx` models the member `itemPrefix` (the string prepended to item
names; renamed in the embedding only), `groupName` the name given to
`parameterGroup` in `setup`, `parameterGroup` the group's children (as
identities of the shared parameter objects), `parameters` the handle vector,
`valueListeners` the subscription targets held by the `ofEventListeners`
member, `nextId` the source of fresh handle identities (each
`std::make_shared` yields a new object). -/
structure Collection where
  itemPfx : String
  groupName : String
  parameterGroup : List Nat
  isSetup : Bool
  hasLimits : Bool
  parameters : List Item
  valueListeners : List Nat
  minV : Int
  maxV : Int
  nextId : Nat
deriving DecidableEq

/-- A freshly constructed collection: the in-class initializers
(`isSetup = false`, `hasLimits = false`, empty containers). -/
def initial : Collection :=
  { itemPfx := "", groupName := "", parameterGroup := [], isSetup := false,
    hasLimits := false, parameters := [], valueListeners := [],
    minV := 0, maxV := 0, nextId := 0 }

/-- Models `setup(itemPrefix, groupName, parentGroup)`: stores the prefix, names the
group, registers it under the parent (the parent holds no state relevant to
the collection itself and is not modelled), and sets `isSetup`. -/
def setup (c : Collection) (pfx groupName : String) : Collection :=
  { c with itemPfx := pfx, groupName := groupName, isSetup := true }

/-- Models `setLimits(min, max)`. -/
def setLimits (c : Collection) (mn mx : Int) : Collection :=
  { c with minV := mn, maxV := mx, hasLimits := true }

/-- The `setup` overload taking `min` and `max`: `setup` then `setLimits`. -/
def setupWithLimits (c : Collection) (pfx groupName : String) (mn mx : Int) :
    Collection :=
  setLimits (setup c pfx groupName) mn mx

/-- The parameter built inside `addItem`: named
`itemPrefix + ofToString(parameterGroup.size())`, holding `value`, with the
stored limits applied when `hasLimits`; `make_shared` yields the fresh
identity `c.nextId`. -/
def mkItem (c : Collection) (value : Int) : Item :=
  { id := c.nextId
    name := c.itemPfx ++ Nat.repr c.parameterGroup.length
    value := value
    pmin := if c.hasLimits then some c.minV else none
    pmax := if c.hasLimits then some c.maxV else none }

/-- The state change performed by `addItem` (listener pushed, handle appended
to `parameters`, parameter added to `parameterGroup`). -/
def addItemPure (c : Collection) (value : Int) : Collection :=
  let item := mkItem c value
  { c with
    valueListeners := c.valueListeners ++ [item.id]
    parameters := c.parameters ++ [item]
    parameterGroup := c.parameterGroup ++ [item.id]
    nextId := c.nextId + 1 }

/-- Models `addItem(value, notify)`: asserts `isSetup`, builds and appends the new
parameter, asserts `parameters.size() == parameterGroup.size()`, and fires
`collectionChangedEvent` when `notify`. -/
def addItem (c : Collection) (value : Int) (notify : Bool) :
    Option (Collection × List Event) :=
  if c.isSetup then
    let c' := addItemPure c value
    if c'.parameters.length = c'.parameterGroup.length then
      some (c', if notify then [Event.shapeChanged] else [])
    else none
  else none

/-- The C++ conversion of a (32-bit) `int` index to `size_t` (64-bit,
unsigned) that happens in `removeAt`'s comparison
`i >= parameters.size()` and in `vector::at(index)`. -/
def sizeTOfInt (i : Int) : Nat := (i % (2 : Int) ^ 64).toNat

/-- Models `getAt(index)`: `parameters.at(index)`; `none` models the
`std::out_of_range` exception thrown by `vector::at`. -/
def getAt (c : Collection) (index : Int) : Option Item :=
  c.parameters[sizeTOfInt index]?

/-- Models `parameterGroup.remove(i)`: removes the child at index `i`. -/
def groupRemove (g : List Nat) (i : Nat) : List Nat :=
  g.take i ++ g.drop (i + 1)

/-- The loop in `clear`:
`for (int i = parameterGroup.size() - 1; i >= 0; i--) parameterGroup.remove(i);`
(iterating from the end, so the argument mirrors the loop counter). -/
def clearGroupLoop (g : List Nat) : Nat → List Nat
  | 0 => g
  | i + 1 => clearGroupLoop (groupRemove g i) i

/-- Models `clear(notify)`: removes every child of the group from the end, clears the
handle vector, unsubscribes every listener, fires `collectionChangedEvent`
when `notify`. -/
def clear (c : Collection) (notify : Bool) : Collection × List Event :=
  ({ c with
      parameterGroup := clearGroupLoop c.parameterGroup c.parameterGroup.length
      parameters := []
      valueListeners := [] },
   if notify then [Event.shapeChanged] else [])

/-- The loop shared by the three `setCollection` overloads:
`addItem(value, false)` for each input value in order. -/
def addAll (c : Collection) : List Int → Option Collection
  | [] => some c
  | v :: rest =>
    match addItem c v false with
    | some (c', _) => addAll c' rest
    | none => none

/-- Models `setCollection(std::vector<ParameterType>, notify)`: `clear(false)`, then
`addItem(value, false)` per input, then `this->notify()` when `notify`.
(The `std::vector<std::shared_ptr<ParameterType>>` overload is identical
after dereferencing each pointer.) -/
def setCollectionValues (c : Collection) (newCollection : List Int)
    (notify : Bool) : Option (Collection × List Event) :=
  match addAll (clear c false).1 newCollection with
  | some c' => some (c', if notify then [Event.shapeChanged] else [])
  | none => none

/-- Models `setCollection(std::vector<std::shared_ptr<ofParameter<T>>>, notify)`:
`addItem(*paramPtr.get(), false)` reads each handle's current value, so this
overload reduces to the value overload on the values held by the handles. -/
def setCollection (c : Collection) (newCollection : List Item) (notify : Bool) :
    Option (Collection × List Event) :=
  setCollectionValues c (newCollection.map Item.value) notify

/-- Models `removeItem(param, notify)`: `std::find` locates the handle by
`shared_ptr` identity; if absent, returns `false` without mutation or
notification; if present, erases it from `parameters`, rebuilds group and
listeners via `setCollection(parameters, false)`, fires
`collectionChangedEvent` when `notify`, asserts
`parameterGroup.size() == parameters.size()`, and returns `true`. -/
def removeItem (c : Collection) (param : Item) (notify : Bool) :
    Option (Collection × List Event × Bool) :=
  match c.parameters.findIdx? (fun q => q.id == param.id) with
  | some j =>
    let c1 := { c with parameters := c.parameters.eraseIdx j }
    match setCollection c1 c1.parameters false with
    | some (c2, _) =>
      if c2.parameterGroup.length = c2.parameters.length then
        some (c2, if notify then [Event.shapeChanged] else [], true)
      else none
    | none => none
  | none => some (c, [], false)

/-- Models `removeAt(i, notify)`: the bounds check `i >= parameters.size()` compares
the `int` index converted to `size_t`; out of range logs and returns `false`,
otherwise delegates to `removeItem(getAt(i), notify)`. -/
def removeAt (c : Collection) (i : Int) (notify : Bool) :
    Option (Collection × List Event × Bool) :=
  if c.parameters.length ≤ sizeTOfInt i then
    some (c, [], false)
  else
    match getAt c i with
    | some p => removeItem c p notify
    | none => none

/-- Mutating the value of the parameter with identity `paramId` through any
live handle: `ofParameter::set` notifies the parameter's listeners, and every
subscription held in `valueListeners` that targets this parameter re-emits it
as `collectionItemChangedEvent`. The result is the list of events fired. -/
def mutateItem (c : Collection) (paramId : Nat) : List Event :=
  (c.valueListeners.filter (fun l => l == paramId)).map Event.itemChanged

/-- Models `setValues(std::vector<ParameterType>, notify)`: asserts
`newValues.size() == parameters.size()` (abort on mismatch, modelled by the
`Option`), then updates each parameter's value in place by index, finally
`this->notify()` when `notify`.

The body of the source loop is written
`parameters[i].get() = newValues[i];`, which assigns to the prvalue raw
pointer returned by `shared_ptr::get` and is ill-formed C++ once the template
member is instantiated (it is never instantiated in the repository).  The
documented behaviour ("Sets the values of the ofParameters in the
collection") is the in-place assignment through the handle modelled here;
each such assignment fires the parameter's value-change subscription. -/
def setValues (c : Collection) (newValues : List Int) (notify : Bool) :
    Option (Collection × List Event) :=
  if newValues.length = c.parameters.length then
    some ({ c with
             parameters := List.zipWith (fun p v => { p with value := v })
               c.parameters newValues },
          (c.parameters.map (fun p => mutateItem c p.id)).flatten ++
            (if notify then [Event.shapeChanged] else []))
  else none

/-- Models `addEntry(notify)`: `ParameterType value;` default-constructs the
placeholder value (modelled as `0`) and calls `addItem(value, notify)`. -/
def addEntry (c : Collection) (notify : Bool) : Option (Collection × List Event) :=
  addItem c 0 notify

/-- A node of the persisted XML document: element name, textual value
(`ofXml::getValue`), and child elements in document order. -/
inductive XmlNode where
  | node (name : String) (value : String) (children : List XmlNode)

/-- Models `ofXml::getName`. -/
def XmlNode.nameOf : XmlNode → String
  | node n _ _ => n

/-- Models `ofXml::getValue` (the node's raw text). -/
def XmlNode.valueOf : XmlNode → String
  | node _ v _ => v

/-- Models `ofXml::getChildren` (direct children in document order). -/
def XmlNode.childrenOf : XmlNode → List XmlNode
  | node _ _ cs => cs

mutual
/-- Models `xml.findFirst("//" + name)`: depth-first search (document order) for the
first element named `name`, anywhere in the tree. -/
def findFirst (nm : String) : XmlNode → Option XmlNode
  | XmlNode.node n v cs =>
    if n = nm then some (XmlNode.node n v cs) else findFirstInList nm cs

/-- Document-order search over a list of sibling subtrees. -/
def findFirstInList (nm : String) : List XmlNode → Option XmlNode
  | [] => none
  | c :: cs =>
    match findFirst nm c with
    | some r => some r
    | none => findFirstInList nm cs
end

/-- Modelled from the spec: the host toolkit's name escaping
(`ofParameterGroup::getEscapedName`, external to this repository) replaces
characters such as spaces with underscores; the claims treat the escaped
name opaquely, so only the space case is modelled. -/
def escapeName (s : String) : String :=
  String.mk (s.data.map (fun ch => if ch = ' ' then '_' else ch))

/-- The loop of `preDeserialize` over the direct children of the matched
node: a child with empty text is skipped with a warning, any other child
triggers `addEntry(false)` exactly once. -/
def preDesChildren (c : Collection) : List XmlNode → Option (Collection × List Event)
  | [] => some (c, [])
  | child :: rest =>
    if (XmlNode.valueOf child).length = 0 then
      preDesChildren c rest
    else
      match addEntry c false with
      | some (c', evs) =>
        match preDesChildren c' rest with
        | some (c'', evs') => some (c'', evs ++ evs')
        | none => none
      | none => none

/-- Models `preDeserialize(xml, clear)`: asserts `isSetup`; clears without
notification when `clear`; searches the document for the first node matching
the escaped group name; logs and returns when absent; otherwise runs the
child pre-scan loop. -/
def preDeserialize (c : Collection) (xml : XmlNode) (clearFlag : Bool) :
    Option (Collection × List Event) :=
  if c.isSetup then
    let c1 := if clearFlag then (clear c false).1 else c
    match findFirst (escapeName c1.groupName) xml with
    | none => some (c1, [])
    | some found => preDesChildren c1 (XmlNode.childrenOf found)
  else none

/-- One public mutating call, for quantifying over call sequences. -/
inductive Op where
  | addItemOp (v : Int) (notify : Bool)
  | removeAtOp (i : Int) (notify : Bool)
  | removeItemOp (p : Item) (notify : Bool)
  | setCollectionOp (vs : List Int) (notify : Bool)
  | setValuesOp (vs : List Int) (notify : Bool)
  | clearOp (notify : Bool)
  | preDeserializeOp (xml : XmlNode) (clearFlag : Bool)

/-- The effect of one public mutating call on the collection state, together
with the events it fires (`none` models an aborted assertion). -/
def step (c : Collection) : Op → Option (Collection × List Event)
  | Op.addItemOp v notify => addItem c v notify
  | Op.removeAtOp i notify =>
    (removeAt c i notify).map (fun r => (r.1, r.2.1))
  | Op.removeItemOp p notify =>
    (removeItem c p notify).map (fun r => (r.1, r.2.1))
  | Op.setCollectionOp vs notify => setCollectionValues c vs notify
  | Op.setValuesOp vs notify => setValues c vs notify
  | Op.clearOp notify => some (clear c notify)
  | Op.preDeserializeOp xml clearFlag => preDeserialize c xml clearFlag

/-- Executes a sequence of public mutating calls, accumulating fired events;
aborts (`none`) as soon as one call aborts. -/
def run (c : Collection) : List Op → Option (Collection × List Event)
  | [] => some (c, [])
  | op :: ops =>
    match step c op with
    | some (c', evs) =>
      match run c' ops with
      | some (c'', evs') => some (c'', evs ++ evs')
      | none => none
    | none => none

/-- The state reached by the `addItem(value, false)` loop of `setCollection`
when no assertion fires (proved equal to `addAll` under the assertions'
preconditions in `addAll_eq` below). -/
def addAllPure (c : Collection) : List Int → Collection
  | [] => c
  | v :: vs => addAllPure (addItemPure c v) vs

/-- Closed form of the items created by a run of `addItem` calls starting
from group length `gLen` and fresh identity `nid` (used only to state and
prove lemmas about `addAllPure`). -/
def builtItems (pfx : String) (lims : Option (Int × Int)) (gLen nid : Nat) :
    List Int → List Item
  | [] => []
  | v :: vs =>
    { id := nid, name := pfx ++ Nat.repr gLen, value := v,
      pmin := lims.map Prod.fst, pmax := lims.map Prod.snd } ::
      builtItems pfx lims (gLen + 1) (nid + 1) vs

/-- Well-formedness of a collection state: set up; group children and
listener targets are exactly the identities of the handle vector, in order;
all identities are below the fresh-identity counter; identities are strictly
increasing (so pairwise distinct, as `make_shared` yields distinct
objects). -/
def Wf (c : Collection) : Prop :=
  c.isSetup = true ∧
  c.parameterGroup = c.parameters.map Item.id ∧
  c.valueListeners = c.parameters.map Item.id ∧
  (∀ p ∈ c.parameters, p.id < c.nextId) ∧
  (c.parameters.map Item.id).Pairwise (· < ·)

/-! ### Basic lemmas about the embedded operations -/

theorem clearGroupLoop_eq_nil :
    ∀ (n : Nat) (g : List Nat), g.length = n → clearGroupLoop g n = [] := by
  intro n
  induction n with
  | zero =>
    intro g hg
    cases g with
    | nil => rfl
    | cons a l => simp at hg
  | succ n ih =>
    intro g hg
    show clearGroupLoop (groupRemove g n) n = []
    apply ih
    simp only [groupRemove, List.length_append, List.length_take,
      List.length_drop, hg]
    omega

theorem clear_fst (c : Collection) (b : Bool) :
    (clear c b).1 =
      { c with parameterGroup := [], parameters := [], valueListeners := [] } := by
  simp only [clear]
  rw [clearGroupLoop_eq_nil c.parameterGroup.length c.parameterGroup rfl]

theorem addItem_eq (c : Collection) (v : Int) (b : Bool)
    (h1 : c.isSetup = true)
    (h2 : c.parameters.length = c.parameterGroup.length) :
    addItem c v b =
      some (addItemPure c v, if b then [Event.shapeChanged] else []) := by
  simp [addItem, addItemPure, h1, h2]

theorem addItemPure_fields (c : Collection) (v : Int) :
    (addItemPure c v).itemPfx = c.itemPfx ∧
    (addItemPure c v).groupName = c.groupName ∧
    (addItemPure c v).isSetup = c.isSetup ∧
    (addItemPure c v).hasLimits = c.hasLimits ∧
    (addItemPure c v).minV = c.minV ∧
    (addItemPure c v).maxV = c.maxV ∧
    (addItemPure c v).nextId = c.nextId + 1 ∧
    (addItemPure c v).parameters = c.parameters ++ [mkItem c v] ∧
    (addItemPure c v).parameterGroup = c.parameterGroup ++ [c.nextId] ∧
    (addItemPure c v).valueListeners = c.valueListeners ++ [c.nextId] := by
  simp [addItemPure, mkItem]

theorem addAll_eq :
    ∀ (vs : List Int) (c : Collection), c.isSetup = true →
      c.parameters.length = c.parameterGroup.length →
      addAll c vs = some (addAllPure c vs) := by
  intro vs
  induction vs with
  | nil => intro c h1 h2; rfl
  | cons v vs ih =>
    intro c h1 h2
    rw [addAll, addItem_eq c v false h1 h2]
    show addAll (addItemPure c v) vs = some (addAllPure c (v :: vs))
    rw [addAllPure, ih (addItemPure c v) (by simp [addItemPure, h1])
      (by simp [addItemPure, h2])]

theorem addAllPure_parameters :
    ∀ (vs : List Int) (c : Collection),
      (addAllPure c vs).parameters =
        c.parameters ++
          builtItems c.itemPfx
            (if c.hasLimits then some (c.minV, c.maxV) else none)
            c.parameterGroup.length c.nextId vs := by
  intro vs
  induction vs with
  | nil => intro c; simp [addAllPure, builtItems]
  | cons v vs ih =>
    intro c
    rw [addAllPure, ih (addItemPure c v)]
    cases hl : c.hasLimits <;>
      simp [addItemPure, mkItem, builtItems, hl, List.append_assoc]

theorem addAllPure_parameterGroup :
    ∀ (vs : List Int) (c : Collection),
      (addAllPure c vs).parameterGroup =
        c.parameterGroup ++ List.range' c.nextId vs.length := by
  intro vs
  induction vs with
  | nil => intro c; simp [addAllPure]
  | cons v vs ih =>
    intro c
    rw [addAllPure, ih (addItemPure c v)]
    simp [addItemPure, mkItem, List.range'_succ, List.append_assoc]

theorem addAllPure_valueListeners :
    ∀ (vs : List Int) (c : Collection),
      (addAllPure c vs).valueListeners =
        c.valueListeners ++ List.range' c.nextId vs.length := by
  intro vs
  induction vs with
  | nil => intro c; simp [addAllPure]
  | cons v vs ih =>
    intro c
    rw [addAllPure, ih (addItemPure c v)]
    simp [addItemPure, mkItem, List.range'_succ, List.append_assoc]

theorem addAllPure_nextId :
    ∀ (vs : List Int) (c : Collection),
      (addAllPure c vs).nextId = c.nextId + vs.length := by
  intro vs
  induction vs with
  | nil => intro c; simp [addAllPure]
  | cons v vs ih =>
    intro c
    rw [addAllPure, ih (addItemPure c v)]
    simp [addItemPure]
    omega

theorem addAllPure_meta :
    ∀ (vs : List Int) (c : Collection),
      (addAllPure c vs).itemPfx = c.itemPfx ∧
      (addAllPure c vs).groupName = c.groupName ∧
      (addAllPure c vs).isSetup = c.isSetup ∧
      (addAllPure c vs).hasLimits = c.hasLimits ∧
      (addAllPure c vs).minV = c.minV ∧
      (addAllPure c vs).maxV = c.maxV := by
  intro vs
  induction vs with
  | nil => intro c; simp [addAllPure]
  | cons v vs ih =>
    intro c
    rw [addAllPure]
    have h := ih (addItemPure c v)
    simpa [addItemPure] using h

theorem builtItems_length (pfx : String) (lims : Option (Int × Int)) :
    ∀ (vs : List Int) (gLen nid : Nat),
      (builtItems pfx lims gLen nid vs).length = vs.length := by
  intro vs
  induction vs with
  | nil => intro gLen nid; rfl
  | cons v vs ih => intro gLen nid; simp [builtItems, ih]

theorem builtItems_map_value (pfx : String) (lims : Option (Int × Int)) :
    ∀ (vs : List Int) (gLen nid : Nat),
      (builtItems pfx lims gLen nid vs).map Item.value = vs := by
  intro vs
  induction vs with
  | nil => intro gLen nid; rfl
  | cons v vs ih => intro gLen nid; simp [builtItems, ih]

theorem builtItems_map_id (pfx : String) (lims : Option (Int × Int)) :
    ∀ (vs : List Int) (gLen nid : Nat),
      (builtItems pfx lims gLen nid vs).map Item.id =
        List.range' nid vs.length := by
  intro vs
  induction vs with
  | nil => intro gLen nid; rfl
  | cons v vs ih => intro gLen nid; simp [builtItems, ih, List.range'_succ]

theorem builtItems_map_name (pfx : String) (lims : Option (Int × Int)) :
    ∀ (vs : List Int) (gLen nid : Nat),
      (builtItems pfx lims gLen nid vs).map Item.name =
        (List.range' gLen vs.length).map (fun i => pfx ++ Nat.repr i) := by
  intro vs
  induction vs with
  | nil => intro gLen nid; rfl
  | cons v vs ih => intro gLen nid; simp [builtItems, ih, List.range'_succ]

/-! ### The rebuild primitive (`clear` then `addItem` per value) -/

theorem wf_clear_fst (c : Collection) (h1 : c.isSetup = true) (b : Bool) :
    Wf (clear c b).1 := by
  rw [clear_fst]
  exact ⟨h1, rfl, rfl, by simp, by simp⟩

theorem setCollectionValues_eq (c : Collection) (vs : List Int) (b : Bool)
    (h1 : c.isSetup = true) :
    setCollectionValues c vs b =
      some (addAllPure (clear c false).1 vs,
        if b then [Event.shapeChanged] else []) := by
  unfold setCollectionValues
  rw [addAll_eq vs (clear c false).1 (by rw [clear_fst]; exact h1)
    (by rw [clear_fst]; rfl)]

theorem rebuild_parameters (c : Collection) (vs : List Int) :
    (addAllPure (clear c false).1 vs).parameters =
      builtItems c.itemPfx
        (if c.hasLimits then some (c.minV, c.maxV) else none) 0 c.nextId vs := by
  rw [addAllPure_parameters, clear_fst]
  rfl

theorem rebuild_group (c : Collection) (vs : List Int) :
    (addAllPure (clear c false).1 vs).parameterGroup =
      List.range' c.nextId vs.length := by
  rw [addAllPure_parameterGroup, clear_fst]
  rfl

theorem rebuild_listeners (c : Collection) (vs : List Int) :
    (addAllPure (clear c false).1 vs).valueListeners =
      List.range' c.nextId vs.length := by
  rw [addAllPure_valueListeners, clear_fst]
  rfl

theorem rebuild_len_eq (c : Collection) (vs : List Int) :
    (addAllPure (clear c false).1 vs).parameterGroup.length =
      (addAllPure (clear c false).1 vs).parameters.length := by
  rw [rebuild_parameters, rebuild_group, builtItems_length, List.length_range']

theorem removeItem_found_eq (c : Collection) (param : Item) (b : Bool) (j : Nat)
    (h1 : c.isSetup = true)
    (hf : c.parameters.findIdx? (fun q => q.id == param.id) = some j) :
    removeItem c param b =
      some (addAllPure
              (clear { c with parameters := c.parameters.eraseIdx j } false).1
              ((c.parameters.eraseIdx j).map Item.value),
            if b then [Event.shapeChanged] else [], true) := by
  simp only [removeItem, hf, setCollection]
  rw [setCollectionValues_eq { c with parameters := c.parameters.eraseIdx j }
    ((c.parameters.eraseIdx j).map Item.value) false h1]
  simp only [rebuild_len_eq, if_true]

theorem removeItem_notFound_eq (c : Collection) (param : Item) (b : Bool)
    (hf : c.parameters.findIdx? (fun q => q.id == param.id) = none) :
    removeItem c param b = some (c, [], false) := by
  simp only [removeItem, hf]

theorem setValues_some_eq (c : Collection) (vs : List Int) (b : Bool)
    (hlen : vs.length = c.parameters.length) :
    setValues c vs b =
      some ({ c with parameters :=
                (List.zipWith (fun p v => { p with value := v })
                  c.parameters vs) },
            (c.parameters.map (fun p => mutateItem c p.id)).flatten ++
              (if b then [Event.shapeChanged] else [])) := by
  simp only [setValues, hlen, if_true]

theorem setValues_none_eq (c : Collection) (vs : List Int) (b : Bool)
    (hlen : vs.length ≠ c.parameters.length) :
    setValues c vs b = none := by
  simp only [setValues, hlen, if_false]

/-! ### Preservation of well-formedness -/

theorem wf_setup_initial (p g : String) : Wf (setup initial p g) := by
  refine ⟨rfl, rfl, rfl, ?_, ?_⟩ <;> simp [setup, initial]

theorem wf_addItemPure (c : Collection) (v : Int) (h : Wf c) :
    Wf (addItemPure c v) := by
  obtain ⟨h1, h2, h3, h4, h5⟩ := h
  refine ⟨?_, ?_, ?_, ?_, ?_⟩
  · simpa [addItemPure] using h1
  · simp [addItemPure, mkItem, h2]
  · simp [addItemPure, mkItem, h3]
  · intro p hp
    simp only [addItemPure, mkItem] at hp ⊢
    rw [List.mem_append] at hp
    rcases hp with hp | hp
    · exact Nat.lt_succ_of_lt (h4 p hp)
    · simp at hp
      subst hp
      simp
  · simp only [addItemPure, mkItem, List.map_append, List.map_cons,
      List.map_nil]
    rw [List.pairwise_append]
    refine ⟨h5, by simp, ?_⟩
    intro a ha b hb
    simp at hb
    subst hb
    rw [List.mem_map] at ha
    obtain ⟨p, hp, rfl⟩ := ha
    exact h4 p hp

theorem wf_addAllPure :
    ∀ (vs : List Int) (c : Collection), Wf c → Wf (addAllPure c vs) := by
  intro vs
  induction vs with
  | nil => intro c h; exact h
  | cons v vs ih => intro c h; exact ih (addItemPure c v) (wf_addItemPure c v h)

theorem wf_rebuild (c0 : Collection) (vs : List Int) (h1 : c0.isSetup = true) :
    Wf (addAllPure (clear c0 false).1 vs) :=
  wf_addAllPure vs _ (wf_clear_fst c0 h1 false)

theorem removeItem_wf (c : Collection) (param : Item) (b : Bool)
    (c' : Collection) (evs : List Event) (r : Bool)
    (h1 : c.isSetup = true)
    (hs : removeItem c param b = some (c', evs, r)) : Wf c' ∨ c' = c := by
  cases hf : c.parameters.findIdx? (fun q => q.id == param.id) with
  | none =>
    rw [removeItem_notFound_eq c param b hf] at hs
    simp only [Option.some.injEq, Prod.mk.injEq] at hs
    exact Or.inr hs.1.symm
  | some j =>
    rw [removeItem_found_eq c param b j h1 hf] at hs
    simp only [Option.some.injEq, Prod.mk.injEq] at hs
    rw [← hs.1]
    exact Or.inl (wf_rebuild _ _ h1)

theorem preDesChildren_wf :
    ∀ (children : List XmlNode) (c : Collection), Wf c →
      ∀ c' evs, preDesChildren c children = some (c', evs) → Wf c' := by
  intro children
  induction children with
  | nil =>
    intro c h c' evs hs
    simp only [preDesChildren, Option.some.injEq, Prod.mk.injEq] at hs
    rw [← hs.1]
    exact h
  | cons child rest ih =>
    intro c h c' evs hs
    rw [preDesChildren] at hs
    split at hs
    · exact ih c h c' evs hs
    · rw [addEntry, addItem_eq c 0 false h.1 (by rw [h.2.1, List.length_map])]
        at hs
      dsimp only [] at hs
      cases hrec : preDesChildren (addItemPure c 0) rest with
      | none => rw [hrec] at hs; exact absurd hs (by simp)
      | some res =>
        rw [hrec] at hs
        simp only [Option.some.injEq, Prod.mk.injEq] at hs
        have hw := ih (addItemPure c 0) (wf_addItemPure c 0 h) res.1 res.2
          (by rw [hrec])
        rw [← hs.1]
        exact hw

theorem map_zipWith_id :
    ∀ (ps : List Item) (vs : List Int), vs.length = ps.length →
      (List.zipWith (fun p v => { p with value := v }) ps vs).map Item.id =
        ps.map Item.id := by
  intro ps
  induction ps with
  | nil => intro vs h; simp
  | cons p ps ih =>
    intro vs h
    cases vs with
    | nil => simp at h
    | cons v vs =>
      simp only [List.zipWith_cons_cons, List.map_cons]
      rw [ih vs (by simpa using h)]

theorem step_wf (c : Collection) (op : Op) (c' : Collection) (evs : List Event)
    (h : Wf c) (hs : step c op = some (c', evs)) : Wf c' := by
  obtain ⟨h1, h2, h3, h4, h5⟩ := h
  cases op with
  | addItemOp v b =>
    rw [step, addItem_eq c v b h1 (by rw [h2, List.length_map])] at hs
    simp only [Option.some.injEq, Prod.mk.injEq] at hs
    rw [← hs.1]
    exact wf_addItemPure c v ⟨h1, h2, h3, h4, h5⟩
  | removeAtOp i b =>
    rw [step, removeAt] at hs
    split at hs
    · simp only [Option.map_some', Option.some.injEq, Prod.mk.injEq] at hs
      rw [← hs.1]
      exact ⟨h1, h2, h3, h4, h5⟩
    · rename_i hlt
      rw [getAt, List.getElem?_eq_getElem (by omega)] at hs
      dsimp only [] at hs
      cases hri : removeItem c (c.parameters[sizeTOfInt i]) b with
      | none => rw [hri] at hs; exact absurd hs (by simp)
      | some res =>
        rw [hri] at hs
        simp only [Option.map_some', Option.some.injEq, Prod.mk.injEq] at hs
        rcases removeItem_wf c _ b res.1 res.2.1 res.2.2 h1
            (by rw [hri]) with hw | hw
        · rw [← hs.1]; exact hw
        · rw [← hs.1, hw]; exact ⟨h1, h2, h3, h4, h5⟩
  | removeItemOp p b =>
    rw [step] at hs
    cases hri : removeItem c p b with
    | none => rw [hri] at hs; exact absurd hs (by simp)
    | some res =>
      rw [hri] at hs
      simp only [Option.map_some', Option.some.injEq, Prod.mk.injEq] at hs
      rcases removeItem_wf c p b res.1 res.2.1 res.2.2 h1 (by rw [hri]) with
        hw | hw
      · rw [← hs.1]; exact hw
      · rw [← hs.1, hw]; exact ⟨h1, h2, h3, h4, h5⟩
  | setCollectionOp vs b =>
    rw [step, setCollectionValues_eq c vs b h1] at hs
    simp only [Option.some.injEq, Prod.mk.injEq] at hs
    rw [← hs.1]
    exact wf_rebuild c vs h1
  | setValuesOp vs b =>
    rw [step] at hs
    by_cases hlen : vs.length = c.parameters.length
    · rw [setValues_some_eq c vs b hlen] at hs
      simp only [Option.some.injEq, Prod.mk.injEq] at hs
      rw [← hs.1]
      refine ⟨h1, ?_, ?_, ?_, ?_⟩
      · show c.parameterGroup =
          (List.zipWith (fun p v => { p with value := v })
            c.parameters vs).map Item.id
        rw [map_zipWith_id c.parameters vs hlen]
        exact h2
      · show c.valueListeners =
          (List.zipWith (fun p v => { p with value := v })
            c.parameters vs).map Item.id
        rw [map_zipWith_id c.parameters vs hlen]
        exact h3
      · intro p hp
        have hid : p.id ∈ (List.zipWith (fun p v => { p with value := v })
            c.parameters vs).map Item.id := List.mem_map_of_mem Item.id hp
        rw [map_zipWith_id c.parameters vs hlen, List.mem_map] at hid
        obtain ⟨q, hq, hqe⟩ := hid
        rw [← hqe]
        exact h4 q hq
      · show ((List.zipWith (fun p v => { p with value := v })
            c.parameters vs).map Item.id).Pairwise (· < ·)
        rw [map_zipWith_id c.parameters vs hlen]
        exact h5
    · rw [setValues_none_eq c vs b hlen] at hs
      exact absurd hs (by simp)
  | clearOp b =>
    rw [step] at hs
    simp only [Option.some.injEq] at hs
    have hc : (clear c b).1 = c' := congrArg Prod.fst hs
    rw [← hc]
    exact wf_clear_fst c h1 b
  | preDeserializeOp xml cf =>
    rw [step, preDeserialize] at hs
    rw [h1] at hs
    simp only [if_true] at hs
    have hwf1 : Wf (if cf then (clear c false).1 else c) := by
      cases cf
      · simpa using ⟨h1, h2, h3, h4, h5⟩
      · simpa using wf_clear_fst c h1 false
    split at hs
    · simp only [Option.some.injEq, Prod.mk.injEq] at hs
      rw [← hs.1]
      exact hwf1
    · exact preDesChildren_wf _ _ hwf1 c' evs hs

theorem run_wf :
    ∀ (ops : List Op) (c : Collection), Wf c →
      ∀ c' evs, run c ops = some (c', evs) → Wf c' := by
  intro ops
  induction ops with
  | nil =>
    intro c h c' evs hs
    simp only [run, Option.some.injEq, Prod.mk.injEq] at hs
    rw [← hs.1]
    exact h
  | cons op ops ih =>
    intro c h c' evs hs
    rw [run] at hs
    split at hs
    · rename_i c1 e1 hst
      split at hs
      · rename_i c2 e2 hrun
        simp only [Option.some.injEq, Prod.mk.injEq] at hs
        have hw1 := step_wf c op c1 e1 h hst
        have hw2 := ih c1 hw1 c2 e2 hrun
        rw [← hs.1]
        exact hw2
      · exact absurd hs (by simp)
    · exact absurd hs (by simp)

theorem wf_of_run (p g : String) (ops : List Op) (c : Collection)
    (evs : List Event) (h : run (setup initial p g) ops = some (c, evs)) :
    Wf c :=
  run_wf ops (setup initial p g) (wf_setup_initial p g) c evs h

/-! ### Lemmas about indices, identities and events -/

theorem eraseIdx_map_value :
    ∀ (l : List Item) (j : Nat),
      (l.eraseIdx j).map Item.value = (l.map Item.value).eraseIdx j := by
  intro l
  induction l with
  | nil => intro j; simp
  | cons x xs ih =>
    intro j
    cases j with
    | zero => simp [List.eraseIdx]
    | succ j => simp [List.eraseIdx, ih]

theorem findIdx_id_self :
    ∀ (l : List Item) (j : Nat) (hj : j < l.length),
      (l.map Item.id).Pairwise (· ≠ ·) →
      l.findIdx? (fun q => q.id == (l.get ⟨j, hj⟩).id) = some j := by
  intro l
  induction l with
  | nil => intro j hj _; simp at hj
  | cons x xs ih =>
    intro j hj hnd
    rw [List.map_cons, List.pairwise_cons] at hnd
    obtain ⟨hhead, htail⟩ := hnd
    cases j with
    | zero => simp [List.findIdx?_cons]
    | succ j =>
      have hj' : j < xs.length := by simpa using hj
      have hmem : (xs.get ⟨j, hj'⟩).id ∈ xs.map Item.id :=
        List.mem_map_of_mem Item.id (List.get_mem xs j hj')
      have hne : x.id ≠ (xs.get ⟨j, hj'⟩).id := hhead _ hmem
      have hget : (x :: xs).get ⟨j + 1, hj⟩ = xs.get ⟨j, hj'⟩ := rfl
      rw [hget, List.findIdx?_cons, if_neg (by simpa using hne),
        List.findIdx?_succ, ih j hj' htail]
      rfl

theorem filter_beq_of_nodup :
    ∀ (l : List Nat) (a : Nat), l.Nodup → a ∈ l →
      l.filter (fun x => x == a) = [a] := by
  intro l
  induction l with
  | nil => intro a _ h; simp at h
  | cons x xs ih =>
    intro a hnd hmem
    rw [List.nodup_cons] at hnd
    obtain ⟨hx, hxs⟩ := hnd
    rw [List.mem_cons] at hmem
    rcases hmem with rfl | hmem
    · rw [List.filter_cons_of_pos (by simp)]
      rw [List.filter_eq_nil_iff.mpr]
      intro b hb
      simp only [beq_iff_eq]
      intro hba
      exact hx (hba ▸ hb)
    · have hxa : x ≠ a := fun h => hx (h ▸ hmem)
      rw [List.filter_cons_of_neg (by simpa using hxa)]
      exact ih a hxs hmem

theorem mutateItem_eq_single (c : Collection) (h : Wf c) (q : Item)
    (hq : q ∈ c.parameters) :
    mutateItem c q.id = [Event.itemChanged q.id] := by
  obtain ⟨-, -, h3, -, h5⟩ := h
  rw [mutateItem, h3,
    filter_beq_of_nodup _ _ (h5.imp fun hab => Nat.ne_of_lt hab)
      (List.mem_map_of_mem Item.id hq)]
  rfl

theorem mutateItem_eq_nil (c : Collection) (i : Nat)
    (h : i ∉ c.valueListeners) : mutateItem c i = [] := by
  rw [mutateItem, List.filter_eq_nil_iff.mpr, List.map_nil]
  intro b hb
  simp only [beq_iff_eq]
  intro hbi
  exact h (hbi ▸ hb)

theorem map_zipWith_value :
    ∀ (ps : List Item) (vs : List Int), vs.length = ps.length →
      (List.zipWith (fun p v => { p with value := v }) ps vs).map Item.value =
        vs := by
  intro ps
  induction ps with
  | nil => intro vs h; simp at h; simp [h]
  | cons p ps ih =>
    intro vs h
    cases vs with
    | nil => simp at h
    | cons v vs =>
      simp only [List.zipWith_cons_cons, List.map_cons]
      rw [ih vs (by simpa using h)]

theorem map_zipWith_name :
    ∀ (ps : List Item) (vs : List Int), vs.length = ps.length →
      (List.zipWith (fun p v => { p with value := v }) ps vs).map Item.name =
        ps.map Item.name := by
  intro ps
  induction ps with
  | nil => intro vs h; simp
  | cons p ps ih =>
    intro vs h
    cases vs with
    | nil => simp at h
    | cons v vs =>
      simp only [List.zipWith_cons_cons, List.map_cons]
      rw [ih vs (by simpa using h)]

theorem sizeTOfInt_coe (j : Nat) (h : j < 18446744073709551616) :
    sizeTOfInt (j : Int) = j := by
  have h64 : (2 : Int) ^ 64 = 18446744073709551616 := by norm_num
  simp only [sizeTOfInt, h64]
  omega

theorem sizeTOfInt_neg (i : Int) (h1 : i < 0) (h2 : -(2 ^ 31) ≤ i) :
    18446744071562067968 ≤ sizeTOfInt i := by
  have h64 : (2 : Int) ^ 64 = 18446744073709551616 := by norm_num
  have h31 : -(2 : Int) ^ 31 = -2147483648 := by norm_num
  rw [h31] at h2
  simp only [sizeTOfInt, h64]
  omega

theorem removeAt_inbounds_eq (c : Collection) (i : Int) (j : Nat) (b : Bool)
    (hconv : sizeTOfInt i = j) (hj : j < c.parameters.length) :
    removeAt c i b = removeItem c (c.parameters.get ⟨j, hj⟩) b := by
  rw [removeAt, if_neg (by omega), getAt, hconv,
    List.getElem?_eq_getElem hj]
  rfl

theorem removeAt_reachable (c : Collection) (h : Wf c) (j : Nat)
    (hj : j < c.parameters.length) (hsize : c.parameters.length ≤ 2 ^ 31)
    (b : Bool) :
    removeAt c (j : Int) b =
      some (addAllPure
              (clear { c with parameters := c.parameters.eraseIdx j } false).1
              ((c.parameters.eraseIdx j).map Item.value),
            if b then [Event.shapeChanged] else [], true) ∧
    removeAt c (j : Int) b = removeItem c (c.parameters.get ⟨j, hj⟩) b := by
  have hconv : sizeTOfInt (j : Int) = j :=
    sizeTOfInt_coe j (lt_of_lt_of_le hj (le_trans hsize (by norm_num)))
  have heq2 : removeAt c (j : Int) b =
      removeItem c (c.parameters.get ⟨j, hj⟩) b :=
    removeAt_inbounds_eq c (j : Int) j b hconv hj
  have hfind : c.parameters.findIdx?
      (fun q => q.id == (c.parameters.get ⟨j, hj⟩).id) = some j :=
    findIdx_id_self c.parameters j hj
      (h.2.2.2.2.imp fun hab => Nat.ne_of_lt hab)
  exact ⟨heq2.trans (removeItem_found_eq c _ b j h.1 hfind), heq2⟩

theorem run_addOps_eq :
    ∀ (pairs : List (Int × Bool)) (c : Collection), c.isSetup = true →
      c.parameters.length = c.parameterGroup.length →
      ∃ evs, run c (pairs.map fun q => Op.addItemOp q.1 q.2) =
        some (addAllPure c (pairs.map Prod.fst), evs) := by
  intro pairs
  induction pairs with
  | nil => intro c _ _; exact ⟨[], rfl⟩
  | cons q rest ih =>
    intro c h1 h2
    obtain ⟨evs', hrec⟩ := ih (addItemPure c q.1)
      (by simpa [addItemPure] using h1) (by simp [addItemPure, mkItem, h2])
    refine ⟨(if q.2 then [Event.shapeChanged] else []) ++ evs', ?_⟩
    rw [List.map_cons, run, step, addItem_eq c q.1 q.2 h1 h2]
    dsimp only []
    rw [hrec]
    rfl

theorem preDesChildren_eq :
    ∀ (children : List XmlNode) (c : Collection), c.isSetup = true →
      c.parameters.length = c.parameterGroup.length →
      preDesChildren c children =
        some (addAllPure c
          ((children.filter (fun ch => ch.valueOf.length != 0)).map
            (fun _ => (0 : Int))), []) := by
  intro children
  induction children with
  | nil => intro c _ _; rfl
  | cons child rest ih =>
    intro c h1 h2
    by_cases hz : (XmlNode.valueOf child).length = 0
    · rw [preDesChildren, if_pos hz, ih c h1 h2,
        List.filter_cons_of_neg (by simpa using hz)]
    · rw [preDesChildren, if_neg hz, addEntry, addItem_eq c 0 false h1 h2]
      dsimp only []
      rw [ih (addItemPure c 0) (by simpa [addItemPure] using h1)
        (by simp [addItemPure, mkItem, h2]),
        List.filter_cons_of_pos (by simpa using hz)]
      rfl

/-! ### The claims -/

/-- C1: Invariant I1 — for every set-up collection and every sequence of
public mutating calls (`addItem`, `removeAt`, `removeItem`, `setCollection`,
`setValues`, `clear`, `preDeserialize`) that returns normally, after each call
returns the number of items in the internal vector equals the number of
children of the internal parameter group. -/
theorem spec_C1 (p g : String) (ops : List Op) (c : Collection)
    (evs : List Event)
    (hrun : run (setup initial p g) ops = some (c, evs)) :
    c.parameters.length = c.parameterGroup.length := by
  have h := wf_of_run p g ops c evs hrun
  rw [h.2.1, List.length_map]

/-- C6: Invariant I2 — for every set-up collection and every sequence of
public operations, the number of live value-change subscriptions equals the
current item count, and after `clear` it is exactly 0. -/
theorem spec_C6 (p g : String) (ops : List Op) (c : Collection)
    (evs : List Event)
    (hrun : run (setup initial p g) ops = some (c, evs)) :
    c.valueListeners.length = c.parameters.length ∧
    ∀ (b : Bool), ((clear c b).1).valueListeners.length = 0 := by
  have h := wf_of_run p g ops c evs hrun
  refine ⟨by rw [h.2.2.1, List.length_map], ?_⟩
  intro b
  rw [clear_fst]
  rfl

/-- C8: Naming — for a freshly set-up collection with item name prefix `p`,
after `addItem` has been called once per entry of `pairs` (any values, any
notify flags) with no removals, the item at 0-based index `i` is named
`p` followed by the decimal rendering of `i`, for every `i` below the number
of calls. -/
theorem spec_C8 (p g : String) (pairs : List (Int × Bool)) (c : Collection)
    (evs : List Event)
    (hrun : run (setup initial p g)
        (pairs.map fun q => Op.addItemOp q.1 q.2) = some (c, evs)) :
    c.parameters.map Item.name =
      (List.range pairs.length).map (fun i => p ++ Nat.repr i) := by
  obtain ⟨evs', hrec⟩ := run_addOps_eq pairs (setup initial p g) rfl rfl
  rw [hrun] at hrec
  simp only [Option.some.injEq, Prod.mk.injEq] at hrec
  rw [hrec.1, addAllPure_parameters]
  simp only [setup, initial, List.map_append, List.nil_append,
    List.length_nil, List.map_nil]
  rw [builtItems_map_name, List.length_map, ← List.range_eq_range']

/-- C9: for every set-up collection and every negative `int` index `i`,
`removeAt(i, notify)` returns `false`, leaves the collection unchanged and
fires no event: the signed index is converted to `size_t` in the bounds
comparison, so every negative index is classified as out of range.
(`hsize` bounds the vector length by what any real `std::vector` of
shared pointers can hold.) -/
theorem spec_C9 (p g : String) (ops : List Op) (c : Collection)
    (evs : List Event) (i : Int) (b : Bool)
    (hrun : run (setup initial p g) ops = some (c, evs))
    (hneg : i < 0) (hlo : -(2 ^ 31) ≤ i)
    (hsize : c.parameters.length < 2 ^ 63) :
    removeAt c i b = some (c, [], false) := by
  have hbig := sizeTOfInt_neg i hneg hlo
  have h63 : (2 : Nat) ^ 63 = 9223372036854775808 := by norm_num
  rw [h63] at hsize
  rw [removeAt, if_pos (by omega)]

/-- C10: `getAt` performs a checked element access: for every index inside
`[0, size())` it returns the handle stored at that index (without modifying
the collection — `getAt` is a pure function of the state in this model), and
for every index outside that range it raises `std::out_of_range` (modelled by
`none`) instead of returning an arbitrary handle. -/
theorem spec_C10 (c : Collection) (index : Int)
    (hlo : -(2 ^ 31) ≤ index) (hhi : index < 2 ^ 31)
    (hsize : c.parameters.length < 2 ^ 63) :
    (0 ≤ index → index < (c.parameters.length : Int) →
      getAt c index = c.parameters[index.toNat]? ∧
      (c.parameters[index.toNat]?).isSome = true) ∧
    ((index < 0 ∨ (c.parameters.length : Int) ≤ index) →
      getAt c index = none) := by
  have h31 : (2 : Int) ^ 31 = 2147483648 := by norm_num
  rw [h31] at hhi
  have h63 : (2 : Nat) ^ 63 = 9223372036854775808 := by norm_num
  rw [h63] at hsize
  constructor
  · intro h0 hlt
    have hconv : sizeTOfInt index = index.toNat := by
      have hc := sizeTOfInt_coe index.toNat (by omega)
      rwa [Int.toNat_of_nonneg h0] at hc
    refine ⟨by rw [getAt, hconv], ?_⟩
    have hn : index.toNat < c.parameters.length := by omega
    rw [List.getElem?_eq_getElem hn]
    rfl
  · intro hcase
    rcases hcase with hneg | hge
    · have hbig := sizeTOfInt_neg index hneg hlo
      rw [getAt, List.getElem?_eq_none (by omega)]
    · have h0 : 0 ≤ index := le_trans (by positivity) hge
      have hconv : sizeTOfInt index = index.toNat := by
        have hc := sizeTOfInt_coe index.toNat (by omega)
        rwa [Int.toNat_of_nonneg h0] at hc
      rw [getAt, hconv, List.getElem?_eq_none (by omega)]

/-- C2: Remove/rebuild — for every set-up collection of size `n` and index
`j < n`, `removeAt(j)` (which delegates to `removeItem` on the handle at
index `j`) returns `true`, yields a collection of size `n - 1` holding the
remaining values in their original relative order, and afterwards mutating
any surviving item's value fires exactly one item-changed event. -/
theorem spec_C2 (p g : String) (ops : List Op) (c : Collection)
    (evs0 : List Event) (j : Nat)
    (hrun : run (setup initial p g) ops = some (c, evs0))
    (hj : j < c.parameters.length)
    (hsize : c.parameters.length ≤ 2 ^ 31) :
    (∀ q : Item, getAt c (j : Int) = some q →
      removeAt c (j : Int) true = removeItem c q true) ∧
    ∃ c', removeAt c (j : Int) true = some (c', [Event.shapeChanged], true) ∧
      c'.parameters.length = c.parameters.length - 1 ∧
      c'.parameters.map Item.value = (c.parameters.map Item.value).eraseIdx j ∧
      ∀ q ∈ c'.parameters, mutateItem c' q.id = [Event.itemChanged q.id] := by
  have h := wf_of_run p g ops c evs0 hrun
  obtain ⟨heq, heq2⟩ := removeAt_reachable c h j hj hsize true
  have hconv : sizeTOfInt (j : Int) = j :=
    sizeTOfInt_coe j (lt_of_lt_of_le hj (le_trans hsize (by norm_num)))
  constructor
  · intro q hq
    rw [getAt, hconv, List.getElem?_eq_getElem hj, Option.some.injEq] at hq
    rw [heq2, ← hq]
    rfl
  · refine ⟨_, heq, ?_, ?_, ?_⟩
    · rw [rebuild_parameters, builtItems_length, List.length_map,
        List.length_eraseIdx_of_lt hj]
    · rw [rebuild_parameters, builtItems_map_value, eraseIdx_map_value]
    · intro q hq
      exact mutateItem_eq_single _
        (wf_rebuild { c with parameters := c.parameters.eraseIdx j }
          ((c.parameters.eraseIdx j).map Item.value) h.1) q hq

/-- C3 (amended): item names are derived from the positional index at the
moment an item object is created; `removeItem` rebuilds the whole collection,
so after removing the item at index `j` the surviving values are held by
freshly created items renamed contiguously `prefix+0 … prefix+(n-2)` — the
survivors do not keep the names they were originally created with, and names
never become non-contiguous. -/
theorem spec_C3 (p g : String) (ops : List Op) (c : Collection)
    (evs0 : List Event) (j : Nat)
    (hrun : run (setup initial p g) ops = some (c, evs0))
    (hj : j < c.parameters.length)
    (hsize : c.parameters.length ≤ 2 ^ 31) :
    ∃ c', removeAt c (j : Int) true = some (c', [Event.shapeChanged], true) ∧
      c'.parameters.map Item.name =
        (List.range (c.parameters.length - 1)).map
          (fun i => c.itemPfx ++ Nat.repr i) := by
  have h := wf_of_run p g ops c evs0 hrun
  obtain ⟨heq, -⟩ := removeAt_reachable c h j hj hsize true
  refine ⟨_, heq, ?_⟩
  rw [rebuild_parameters, builtItems_map_name, List.length_map,
    List.length_eraseIdx_of_lt hj, ← List.range_eq_range']

/-- C3 (counterexample to the claim as stated): with prefix `"P"`, after two
`addItem` calls the items are named `"P0"`, `"P1"`; removing the item at
index 0 leaves the surviving value `20` in an item named `"P0"` — the
survivor does not keep the name `"P1"` it was created with, and the names are
renumbered contiguously rather than becoming non-contiguous. -/
theorem spec_C3_counterexample :
    (run (setup initial "P" "G")
        [Op.addItemOp 10 true, Op.addItemOp 20 true]).map
      (fun r => r.1.parameters.map (fun q => (q.name, q.value))) =
      some [("P0", 10), ("P1", 20)] ∧
    (run (setup initial "P" "G")
        [Op.addItemOp 10 true, Op.addItemOp 20 true,
          Op.removeAtOp 0 true]).map
      (fun r => r.1.parameters.map (fun q => (q.name, q.value))) =
      some [("P0", 20)] := by
  exact ⟨by decide, by decide⟩

/-- C4: Bulk replace — for every set-up collection and every value list
`vs`, `setCollection` (whose handle overload reduces to the value overload on
the values held by the handles) yields exactly `vs.length` items holding the
values of `vs` in order, fires exactly one shape-changed event at the end
when `notify` and none otherwise, and the previous items' value-change
subscriptions no longer fire even if the old handles are mutated
afterwards. -/
theorem spec_C4 (p g : String) (ops : List Op) (c : Collection)
    (evs0 : List Event) (vs : List Int) (b : Bool)
    (hrun : run (setup initial p g) ops = some (c, evs0)) :
    (∀ items : List Item, setCollection c items b =
      setCollectionValues c (items.map Item.value) b) ∧
    ∃ c', setCollectionValues c vs b =
        some (c', if b then [Event.shapeChanged] else []) ∧
      c'.parameters.map Item.value = vs ∧
      c'.parameters.length = vs.length ∧
      ∀ q ∈ c.parameters, mutateItem c' q.id = [] := by
  have h := wf_of_run p g ops c evs0 hrun
  refine ⟨fun items => rfl, ?_⟩
  refine ⟨_, setCollectionValues_eq c vs b h.1, ?_, ?_, ?_⟩
  · rw [rebuild_parameters, builtItems_map_value]
  · rw [rebuild_parameters, builtItems_length]
  · intro q hq
    apply mutateItem_eq_nil
    rw [rebuild_listeners, List.mem_range'_1]
    have := h.2.2.2.1 q hq
    omega

/-- C5: `setValues` on the documented in-place-update semantics — with a
value list whose length differs from the item count the call aborts with no
partial mutation (`none`); with equal lengths every item's value is updated
in place by index, preserving item identity (same ids and names, no item
created or destroyed) and leaving the subscription set untouched, and the
handles afterwards hold exactly the new values.  (The source's loop body
`parameters[i].get() = newValues[i];` is an ill-formed assignment to the
prvalue pointer returned by `shared_ptr::get`; `setValues` here models the
behaviour documented in the source.) -/
theorem spec_C5 (p g : String) (ops : List Op) (c : Collection)
    (evs0 : List Event) (vs : List Int) (b : Bool)
    (hrun : run (setup initial p g) ops = some (c, evs0)) :
    (vs.length ≠ c.parameters.length → setValues c vs b = none) ∧
    (vs.length = c.parameters.length →
      ∃ c' evs, setValues c vs b = some (c', evs) ∧
        c'.parameters.map Item.value = vs ∧
        c'.parameters.map Item.id = c.parameters.map Item.id ∧
        c'.parameters.map Item.name = c.parameters.map Item.name ∧
        c'.valueListeners = c.valueListeners) := by
  refine ⟨fun hne => setValues_none_eq c vs b hne, fun hlen => ?_⟩
  refine ⟨_, _, setValues_some_eq c vs b hlen, ?_, ?_, ?_, rfl⟩
  · exact map_zipWith_value c.parameters vs hlen
  · exact map_zipWith_id c.parameters vs hlen
  · exact map_zipWith_name c.parameters vs hlen

/-- C7: `preDeserialize(tree, clear = true)` — if the tree has no node whose
name matches the collection's escaped group name, the collection is left
empty and the call returns without error; otherwise the collection holds
exactly one default-valued placeholder item per direct child of the matched
node whose textual value is non-empty, in document order (empty-text
children are skipped and not counted), and the call fires no event. -/
theorem spec_C7 (p g : String) (ops : List Op) (c : Collection)
    (evs0 : List Event) (xml found : XmlNode)
    (hrun : run (setup initial p g) ops = some (c, evs0)) :
    (findFirst (escapeName c.groupName) xml = none →
      preDeserialize c xml true = some ((clear c false).1, []) ∧
      ((clear c false).1).parameters = []) ∧
    (findFirst (escapeName c.groupName) xml = some found →
      ∃ c', preDeserialize c xml true = some (c', []) ∧
        c'.parameters.map Item.value =
          (found.childrenOf.filter (fun ch => ch.valueOf.length != 0)).map
            (fun _ => (0 : Int)) ∧
        c'.parameters.length =
          (found.childrenOf.filter (fun ch => ch.valueOf.length != 0)).length) := by
  have h := wf_of_run p g ops c evs0 hrun
  have hgn : ((clear c false).1).groupName = c.groupName := by rw [clear_fst]
  have hps : preDeserialize c xml true =
      (match findFirst (escapeName ((clear c false).1).groupName) xml with
       | none => some ((clear c false).1, [])
       | some fd => preDesChildren (clear c false).1 fd.childrenOf) := by
    rw [preDeserialize, h.1]
    rfl
  constructor
  · intro hnone
    refine ⟨?_, by rw [clear_fst]⟩
    rw [hps, hgn, hnone]
  · intro hfound
    refine ⟨addAllPure (clear c false).1
      ((found.childrenOf.filter (fun ch => ch.valueOf.length != 0)).map
        (fun _ => (0 : Int))), ?_, ?_, ?_⟩
    · rw [hps, hgn, hfound]
      exact preDesChildren_eq found.childrenOf (clear c false).1
        (by rw [clear_fst]; exact h.1) (by rw [clear_fst]; rfl)
    · rw [rebuild_parameters, builtItems_map_value]
    · rw [rebuild_parameters, builtItems_length, List.length_map]

/-! ### Witnesses: each claim theorem applied at a concrete input -/

theorem spec_C1_witness :
    (Collection.mk "P" "G" [0, 1] true false
        [Item.mk 0 "P0" 1 none none, Item.mk 1 "P1" 2 none none]
        [0, 1] 0 0 2).parameters.length =
      (Collection.mk "P" "G" [0, 1] true false
        [Item.mk 0 "P0" 1 none none, Item.mk 1 "P1" 2 none none]
        [0, 1] 0 0 2).parameterGroup.length :=
  spec_C1 "P" "G" [Op.addItemOp 1 true, Op.addItemOp 2 true]
    (Collection.mk "P" "G" [0, 1] true false
      [Item.mk 0 "P0" 1 none none, Item.mk 1 "P1" 2 none none]
      [0, 1] 0 0 2)
    [Event.shapeChanged, Event.shapeChanged] (by decide)

theorem spec_C6_witness :
    (Collection.mk "P" "G" [0, 1] true false
        [Item.mk 0 "P0" 1 none none, Item.mk 1 "P1" 2 none none]
        [0, 1] 0 0 2).valueListeners.length =
      (Collection.mk "P" "G" [0, 1] true false
        [Item.mk 0 "P0" 1 none none, Item.mk 1 "P1" 2 none none]
        [0, 1] 0 0 2).parameters.length ∧
    ((clear (Collection.mk "P" "G" [0, 1] true false
        [Item.mk 0 "P0" 1 none none, Item.mk 1 "P1" 2 none none]
        [0, 1] 0 0 2) true).1).valueListeners.length = 0 := by
  have h := spec_C6 "P" "G" [Op.addItemOp 1 true, Op.addItemOp 2 true]
    (Collection.mk "P" "G" [0, 1] true false
      [Item.mk 0 "P0" 1 none none, Item.mk 1 "P1" 2 none none]
      [0, 1] 0 0 2)
    [Event.shapeChanged, Event.shapeChanged] (by decide)
  exact ⟨h.1, h.2 true⟩

theorem spec_C2_witness :
    (removeAt (Collection.mk "P" "G" [0, 1] true false
        [Item.mk 0 "P0" 1 none none, Item.mk 1 "P1" 2 none none]
        [0, 1] 0 0 2) ((0 : Nat) : Int) true =
      removeItem (Collection.mk "P" "G" [0, 1] true false
        [Item.mk 0 "P0" 1 none none, Item.mk 1 "P1" 2 none none]
        [0, 1] 0 0 2) (Item.mk 0 "P0" 1 none none) true) ∧
    ∃ c', removeAt (Collection.mk "P" "G" [0, 1] true false
        [Item.mk 0 "P0" 1 none none, Item.mk 1 "P1" 2 none none]
        [0, 1] 0 0 2) ((0 : Nat) : Int) true =
        some (c', [Event.shapeChanged], true) ∧
      c'.parameters.length =
        (Collection.mk "P" "G" [0, 1] true false
          [Item.mk 0 "P0" 1 none none, Item.mk 1 "P1" 2 none none]
          [0, 1] 0 0 2).parameters.length - 1 ∧
      c'.parameters.map Item.value =
        ((Collection.mk "P" "G" [0, 1] true false
          [Item.mk 0 "P0" 1 none none, Item.mk 1 "P1" 2 none none]
          [0, 1] 0 0 2).parameters.map Item.value).eraseIdx 0 ∧
      ∀ q ∈ c'.parameters, mutateItem c' q.id = [Event.itemChanged q.id] := by
  have h := spec_C2 "P" "G" [Op.addItemOp 1 true, Op.addItemOp 2 true]
    (Collection.mk "P" "G" [0, 1] true false
      [Item.mk 0 "P0" 1 none none, Item.mk 1 "P1" 2 none none]
      [0, 1] 0 0 2)
    [Event.shapeChanged, Event.shapeChanged] 0 (by decide) (by decide)
    (by norm_num)
  exact ⟨h.1 (Item.mk 0 "P0" 1 none none) (by decide), h.2⟩

theorem spec_C3_witness :
    ∃ c', removeAt (Collection.mk "P" "G" [0, 1] true false
        [Item.mk 0 "P0" 1 none none, Item.mk 1 "P1" 2 none none]
        [0, 1] 0 0 2) ((0 : Nat) : Int) true =
        some (c', [Event.shapeChanged], true) ∧
      c'.parameters.map Item.name =
        (List.range ((Collection.mk "P" "G" [0, 1] true false
          [Item.mk 0 "P0" 1 none none, Item.mk 1 "P1" 2 none none]
          [0, 1] 0 0 2).parameters.length - 1)).map
          (fun i => (Collection.mk "P" "G" [0, 1] true false
            [Item.mk 0 "P0" 1 none none, Item.mk 1 "P1" 2 none none]
            [0, 1] 0 0 2).itemPfx ++ Nat.repr i) :=
  spec_C3 "P" "G" [Op.addItemOp 1 true, Op.addItemOp 2 true]
    (Collection.mk "P" "G" [0, 1] true false
      [Item.mk 0 "P0" 1 none none, Item.mk 1 "P1" 2 none none]
      [0, 1] 0 0 2)
    [Event.shapeChanged, Event.shapeChanged] 0 (by decide) (by decide)
    (by norm_num)

theorem spec_C4_witness :
    (setCollection (Collection.mk "P" "G" [0, 1] true false
        [Item.mk 0 "P0" 1 none none, Item.mk 1 "P1" 2 none none]
        [0, 1] 0 0 2) [Item.mk 9 "X" 7 none none] true =
      setCollectionValues (Collection.mk "P" "G" [0, 1] true false
        [Item.mk 0 "P0" 1 none none, Item.mk 1 "P1" 2 none none]
        [0, 1] 0 0 2) ([Item.mk 9 "X" 7 none none].map Item.value) true) ∧
    ∃ c', setCollectionValues (Collection.mk "P" "G" [0, 1] true false
        [Item.mk 0 "P0" 1 none none, Item.mk 1 "P1" 2 none none]
        [0, 1] 0 0 2) [7, 8, 9] true =
        some (c', if true then [Event.shapeChanged] else []) ∧
      c'.parameters.map Item.value = [7, 8, 9] ∧
      c'.parameters.length = ([7, 8, 9] : List Int).length ∧
      ∀ q ∈ (Collection.mk "P" "G" [0, 1] true false
        [Item.mk 0 "P0" 1 none none, Item.mk 1 "P1" 2 none none]
        [0, 1] 0 0 2).parameters, mutateItem c' q.id = [] := by
  have h := spec_C4 "P" "G" [Op.addItemOp 1 true, Op.addItemOp 2 true]
    (Collection.mk "P" "G" [0, 1] true false
      [Item.mk 0 "P0" 1 none none, Item.mk 1 "P1" 2 none none]
      [0, 1] 0 0 2)
    [Event.shapeChanged, Event.shapeChanged] [7, 8, 9] true (by decide)
  exact ⟨h.1 [Item.mk 9 "X" 7 none none], h.2⟩

theorem spec_C5_witness :
    setValues (Collection.mk "P" "G" [0, 1] true false
        [Item.mk 0 "P0" 1 none none, Item.mk 1 "P1" 2 none none]
        [0, 1] 0 0 2) [1, 2, 3] true = none ∧
    ∃ c' evs, setValues (Collection.mk "P" "G" [0, 1] true false
        [Item.mk 0 "P0" 1 none none, Item.mk 1 "P1" 2 none none]
        [0, 1] 0 0 2) [5, 6] true = some (c', evs) ∧
      c'.parameters.map Item.value = [5, 6] ∧
      c'.parameters.map Item.id =
        (Collection.mk "P" "G" [0, 1] true false
          [Item.mk 0 "P0" 1 none none, Item.mk 1 "P1" 2 none none]
          [0, 1] 0 0 2).parameters.map Item.id ∧
      c'.parameters.map Item.name =
        (Collection.mk "P" "G" [0, 1] true false
          [Item.mk 0 "P0" 1 none none, Item.mk 1 "P1" 2 none none]
          [0, 1] 0 0 2).parameters.map Item.name ∧
      c'.valueListeners =
        (Collection.mk "P" "G" [0, 1] true false
          [Item.mk 0 "P0" 1 none none, Item.mk 1 "P1" 2 none none]
          [0, 1] 0 0 2).valueListeners := by
  constructor
  · exact (spec_C5 "P" "G" [Op.addItemOp 1 true, Op.addItemOp 2 true]
      (Collection.mk "P" "G" [0, 1] true false
        [Item.mk 0 "P0" 1 none none, Item.mk 1 "P1" 2 none none]
        [0, 1] 0 0 2)
      [Event.shapeChanged, Event.shapeChanged] [1, 2, 3] true
      (by decide)).1 (by decide)
  · exact (spec_C5 "P" "G" [Op.addItemOp 1 true, Op.addItemOp 2 true]
      (Collection.mk "P" "G" [0, 1] true false
        [Item.mk 0 "P0" 1 none none, Item.mk 1 "P1" 2 none none]
        [0, 1] 0 0 2)
      [Event.shapeChanged, Event.shapeChanged] [5, 6] true
      (by decide)).2 (by decide)

theorem spec_C7_witness :
    (preDeserialize (setup initial "P" "G")
        (XmlNode.node "root" "" [XmlNode.node "H" "hello" []]) true =
      some ((clear (setup initial "P" "G") false).1, []) ∧
      ((clear (setup initial "P" "G") false).1).parameters = []) ∧
    ∃ c', preDeserialize (setup initial "P" "G")
        (XmlNode.node "root" ""
          [XmlNode.node "G" ""
            [XmlNode.node "a" "x" [], XmlNode.node "b" "" [],
              XmlNode.node "c" "y" []]]) true = some (c', []) ∧
      c'.parameters.map Item.value =
        (((XmlNode.node "G" ""
            [XmlNode.node "a" "x" [], XmlNode.node "b" "" [],
              XmlNode.node "c" "y" []]).childrenOf.filter
          (fun ch => ch.valueOf.length != 0)).map (fun _ => (0 : Int))) ∧
      c'.parameters.length =
        ((XmlNode.node "G" ""
            [XmlNode.node "a" "x" [], XmlNode.node "b" "" [],
              XmlNode.node "c" "y" []]).childrenOf.filter
          (fun ch => ch.valueOf.length != 0)).length := by
  constructor
  · exact (spec_C7 "P" "G" [] (setup initial "P" "G") []
      (XmlNode.node "root" "" [XmlNode.node "H" "hello" []])
      (XmlNode.node "root" "" [XmlNode.node "H" "hello" []]) rfl).1
      (by rw [show escapeName (setup initial "P" "G").groupName = "G" from rfl]
          simp [findFirst, findFirstInList])
  · exact (spec_C7 "P" "G" [] (setup initial "P" "G") []
      (XmlNode.node "root" ""
        [XmlNode.node "G" ""
          [XmlNode.node "a" "x" [], XmlNode.node "b" "" [],
            XmlNode.node "c" "y" []]])
      (XmlNode.node "G" ""
        [XmlNode.node "a" "x" [], XmlNode.node "b" "" [],
          XmlNode.node "c" "y" []]) rfl).2
      (by rw [show escapeName (setup initial "P" "G").groupName = "G" from rfl]
          simp [findFirst, findFirstInList])

theorem spec_C8_witness :
    (Collection.mk "P" "G" [0, 1] true false
        [Item.mk 0 "P0" 5 none none, Item.mk 1 "P1" 6 none none]
        [0, 1] 0 0 2).parameters.map Item.name =
      (List.range ([((5 : Int), true), ((6 : Int), false)]).length).map
        (fun i => "P" ++ Nat.repr i) :=
  spec_C8 "P" "G" [((5 : Int), true), ((6 : Int), false)]
    (Collection.mk "P" "G" [0, 1] true false
      [Item.mk 0 "P0" 5 none none, Item.mk 1 "P1" 6 none none]
      [0, 1] 0 0 2)
    [Event.shapeChanged] (by decide)

theorem spec_C9_witness :
    removeAt (setup initial "P" "G") (-1) false =
      some (setup initial "P" "G", [], false) :=
  spec_C9 "P" "G" [] (setup initial "P" "G") [] (-1) false rfl
    (by decide) (by decide) (by decide)

theorem spec_C10_witness :
    getAt (Collection.mk "P" "G" [0, 1] true false
        [Item.mk 0 "P0" 1 none none, Item.mk 1 "P1" 2 none none]
        [0, 1] 0 0 2) 1 =
      (Collection.mk "P" "G" [0, 1] true false
        [Item.mk 0 "P0" 1 none none, Item.mk 1 "P1" 2 none none]
        [0, 1] 0 0 2).parameters[(1 : Int).toNat]? ∧
    ((Collection.mk "P" "G" [0, 1] true false
        [Item.mk 0 "P0" 1 none none, Item.mk 1 "P1" 2 none none]
        [0, 1] 0 0 2).parameters[(1 : Int).toNat]?).isSome = true :=
  (spec_C10 (Collection.mk "P" "G" [0, 1] true false
      [Item.mk 0 "P0" 1 none none, Item.mk 1 "P1" 2 none none]
      [0, 1] 0 0 2) 1 (by decide) (by decide) (by decide)).1
    (by decide) (by decide)

end OfxPC
